import Mathlib

/- Shallow embedding of QiyiJiang/douban_spider:
   douban_book_spider.py (DoubanBookScraper._load_existing_ids,
   DoubanBookScraper._append_to_jsonl, DoubanBookScraper.get_book_comments,
   DoubanBookScraper.get_book_review, crawl_single_book, main) and
   proxy_pool.py (ProxyPool.get_proxy, ProxyPool.mark_proxy_failed).
   Network responses, write failures and random draws are supplied as
   explicit oracles. -/

set_option linter.unusedVariables false
set_option linter.unnecessarySeqFocus false

/-- One JSON object persisted as one line of a .jsonl stream; only the fields
that `_load_existing_ids` inspects (book_id, title, review_id) are modelled,
plus content (needed for the full-content downgrade behaviour of reviews).
A `none` field means the key is absent from the JSON object. -/
structure RecLine where
  book_id : Option String
  title : Option String
  review_id : Option String
  content : Option String
deriving DecidableEq

/-- One physical line of a .jsonl file as seen by `_load_existing_ids`:
blank (whitespace only, skipped before parsing), bad (json.loads or the
subsequent field access raises), or a parsed JSON object. -/
inductive FileLine where
  | blank : FileLine
  | bad : FileLine
  | obj : RecLine → FileLine
deriving DecidableEq

/-- Python set.add on a set modelled as a list used up to membership. -/
def insertId (s : List String) (x : String) : List String :=
  if x ∈ s then s else x :: s

/-- The id `_load_existing_ids` (lines 72-79) extracts from one parsed line:
book_id whenever both the book_id and the title keys are present, otherwise
review_id when that key is present and its value truthy (non-empty). -/
def recLineId (r : RecLine) : Option String :=
  match r.book_id, r.title with
  | some b, some _ => some b
  | _, _ =>
    match r.review_id with
    | some rid => if rid = "" then none else some rid
    | none => none

/-- The line scan of `_load_existing_ids` (lines 70-82): the try/except
encloses the whole for-loop, so a line whose parse raises ends the scan and
the ids collected so far are returned. -/
def loadScan : List FileLine → List String → List String
  | [], acc => acc
  | FileLine.blank :: rest, acc => loadScan rest acc
  | FileLine.bad :: _, acc => acc
  | FileLine.obj r :: rest, acc =>
      loadScan rest
        (match recLineId r with
         | some i => insertId acc i
         | none => acc)

/-- `_load_existing_ids` (lines 64-83) on the content of an existing file. -/
def load_existing_ids (F : List FileLine) : List String :=
  loadScan F []

/-- `_append_to_jsonl` (lines 85-94): append one serialized line and report
success as a boolean; on an exception nothing is appended and False is
returned. `ok` is the oracle for whether this write raises. -/
def append_to_jsonl (ok : Bool) (line : FileLine) (file : List FileLine) :
    List FileLine × Bool :=
  if ok then (file ++ [line], true) else (file, false)

/-- Outcome of the secondary full-content fetch of one review (lines
621-632): the request or parse raised, or the detail page was fetched and
its .review-content element is either present (with its text) or absent. -/
inductive DetailFetch where
  | fail : DetailFetch
  | ok : Option String → DetailFetch
deriving DecidableEq

/-- The fields of one .comment-item that the dedup/persist logic consumes:
the extracted id ("" when every extraction fallback came up empty) and the
.short comment text. -/
structure CommentItem where
  rid : String
  content : String
deriving DecidableEq

/-- The fields of one .review-item that the dedup/persist logic consumes. -/
structure ReviewItem where
  rid : String
  title : String
  content : String
  review_url : String
  detail : DetailFetch
deriving DecidableEq

/-- One item of a page: the per-record try/except catches an exception
raised while extracting (continue), or the record is extracted. -/
inductive ItemRes (α : Type) where
  | err : ItemRes α
  | item : α → ItemRes α

/-- One page: the page-level try/except catches a fetch/parse exception
(break), or the page yields its extracted item list (possibly empty). -/
inductive PageRes (α : Type) where
  | fetchErr : PageRes α
  | page : List (ItemRes α) → PageRes α

/-- The external world of one collector run: the server response for every
page index, and for the n-th call to `_append_to_jsonl` whether the write
succeeds. -/
structure Env (α : Type) where
  pages : Nat → PageRes α
  appendOk : Nat → Bool

/-- Per-stream parameters of the shared pagination loop: how the record id
is read and which JSON object is persisted for an accepted record
(get_book_comments: lines 456-467; get_book_review: lines 601-619). -/
structure StreamSpec (α : Type) where
  rid : α → String
  mkLine : String → α → RecLine

/-- Lines 621-632 of get_book_review: when fetch_full_content is set and the
record has a review_url, the full text replaces the summary only if the
secondary fetch succeeds and a .review-content element exists; any failure
of that fetch leaves the summary content in place. -/
def resolveContent (fetch_full_content : Bool) (it : ReviewItem) : String :=
  if fetch_full_content ∧ it.review_url ≠ "" then
    match it.detail with
    | DetailFetch.fail => it.content
    | DetailFetch.ok none => it.content
    | DetailFetch.ok (some t) => t
  else it.content

/-- The comment stream: persisted objects carry book_id, review_id and
content but no title key (lines 456-467). -/
def commentSpec : StreamSpec CommentItem where
  rid := fun it => it.rid
  mkLine := fun book_id it =>
    { book_id := some book_id
      title := none
      review_id := some it.rid
      content := some it.content }

/-- The review stream: persisted objects carry book_id, title, review_id
and the (possibly upgraded) content (lines 601-632). -/
def reviewSpec (fetch_full_content : Bool) : StreamSpec ReviewItem where
  rid := fun it => it.rid
  mkLine := fun book_id it =>
    { book_id := some book_id
      title := some it.title
      review_id := some it.rid
      content := some (resolveContent fetch_full_content it) }

/-- Collector state: existing_ids, the output file content, new_count,
page_count, the index of the next `_append_to_jsonl` call (tick), plus two
ghost traces used only to state properties: the page indices fetched (one
per loop iteration) and the page_new_count of every fully processed page. -/
structure St where
  existing : List String
  file : List FileLine
  newCount : Nat
  pageCount : Nat
  tick : Nat
  fetched : List Nat
  pageNews : List Nat
deriving DecidableEq

/-- Processing of one extracted record inside the inner for-loop (comments:
lines 405-479, reviews: lines 534-644): skip on an empty or already-seen
id; otherwise persist via `_append_to_jsonl` and, exactly on success,
insert the id into existing_ids and bump new_count and page_new_count;
afterwards report whether the for-loop breaks because new_count reached
max_comments. -/
def recordStep {α : Type} (S : StreamSpec α) (env : Env α) (book_id : String)
    (max_comments : Nat) (it : α) (st : St) (pageNew : Nat) :
    St × Nat × Bool :=
  if S.rid it = "" ∨ S.rid it ∈ st.existing then (st, pageNew, false)
  else
    let ap := append_to_jsonl (env.appendOk st.tick)
      (FileLine.obj (S.mkLine book_id it)) st.file
    if ap.2 then
      let st1 : St := { st with file := ap.1
                                existing := insertId st.existing (S.rid it)
                                newCount := st.newCount + 1
                                tick := st.tick + 1 }
      (st1, pageNew + 1, decide (max_comments ≤ st1.newCount))
    else
      let st1 : St := { st with tick := st.tick + 1 }
      (st1, pageNew, decide (max_comments ≤ st1.newCount))

/-- The inner for-loop over the items of one page; a record whose step
reports the target-reached break stops the traversal. -/
def processItems {α : Type} (S : StreamSpec α) (env : Env α) (book_id : String)
    (max_comments : Nat) : List (ItemRes α) → St → Nat → St × Nat
  | [], st, pageNew => (st, pageNew)
  | ItemRes.err :: rest, st, pageNew =>
      processItems S env book_id max_comments rest st pageNew
  | ItemRes.item it :: rest, st, pageNew =>
      if (recordStep S env book_id max_comments it st pageNew).2.2 then
        ((recordStep S env book_id max_comments it st pageNew).1,
         (recordStep S env book_id max_comments it st pageNew).2.1)
      else
        processItems S env book_id max_comments rest
          (recordStep S env book_id max_comments it st pageNew).1
          (recordStep S env book_id max_comments it st pageNew).2.1

/-- The tail of one loop iteration after the items of a page were processed
(comments lines 481-487, reviews lines 646-652): advance page_count, record
the page's page_new_count in the ghost trace, and report whether the
while-loop goes on — it breaks when the page yielded zero newly accepted
records, or when new_count reached max_comments. -/
def pageFinish (max_comments : Nat) (pr : St × Nat) : St × Bool :=
  ({ pr.1 with pageCount := pr.1.pageCount + 1
               pageNews := pr.1.pageNews ++ [pr.2] },
   decide (pr.2 ≠ 0) && decide (pr.1.newCount < max_comments))

/-- One iteration of the pagination while-loop (the try-block at
get_book_comments lines 395-493 and get_book_review lines 524-658): fetch
page page_count (a fetch exception or an empty item list breaks), run the
inner for-loop over its items, then `pageFinish`. Returns the state after
the iteration and whether the while-loop goes on. -/
def pageStep {α : Type} (S : StreamSpec α) (env : Env α) (book_id : String)
    (max_comments : Nat) (st : St) : St × Bool :=
  match env.pages st.pageCount with
  | PageRes.fetchErr => ({ st with fetched := st.fetched ++ [st.pageCount] }, false)
  | PageRes.page items =>
      if items.isEmpty then ({ st with fetched := st.fetched ++ [st.pageCount] }, false)
      else
        pageFinish max_comments
          (processItems S env book_id max_comments items
            { st with fetched := st.fetched ++ [st.pageCount] } 0)

/-- The while-loop shared by get_book_comments (lines 387-493) and
get_book_review (lines 517-658): while page_count < max_pages and
new_count < max_comments, run one `pageStep` iteration and stop when it
breaks. The fuel argument only bounds the recursion depth; any fuel of at
least max_pages - page_count yields the same result (collectLoop_fuel_eq
below), because every continuing iteration advances page_count. -/
def collectLoop {α : Type} (S : StreamSpec α) (env : Env α) (book_id : String)
    (max_comments max_pages : Nat) : Nat → St → St
  | 0, st => st
  | fuel + 1, st =>
      if st.pageCount < max_pages ∧ st.newCount < max_comments then
        if (pageStep S env book_id max_comments st).2 then
          collectLoop S env book_id max_comments max_pages fuel
            (pageStep S env book_id max_comments st).1
        else (pageStep S env book_id max_comments st).1
      else st

/-- Collector state at loop entry: existing_ids freshly rebuilt from the
stream file F, all counters zero. -/
def initSt (F : List FileLine) : St :=
  { existing := load_existing_ids F
    file := F
    newCount := 0
    pageCount := 0
    tick := 0
    fetched := []
    pageNews := [] }

/-- get_book_comments (lines 369-496): rebuild existing_ids from
comments.jsonl (content F), compute max_pages, run the pagination loop.
The result is the final collector state; the Python return value of the
function is `get_book_comments_ret`. -/
def get_book_comments (env : Env CommentItem) (book_id : String)
    (max_comments comments_per_page : Nat) (F : List FileLine) : St :=
  let max_pages := (max_comments + comments_per_page - 1) / comments_per_page
  collectLoop commentSpec env book_id max_comments max_pages max_pages (initSt F)

/-- Line 496 of get_book_comments: `return new_count > 0`. -/
def get_book_comments_ret (env : Env CommentItem) (book_id : String)
    (max_comments comments_per_page : Nat) (F : List FileLine) : Bool :=
  decide (0 < (get_book_comments env book_id max_comments comments_per_page F).newCount)

/-- get_book_review (lines 498-661): rebuild existing_ids from
reviews.jsonl (content F), compute max_pages, run the pagination loop. -/
def get_book_review (env : Env ReviewItem) (book_id : String)
    (max_comments comments_per_page : Nat) (fetch_full_content : Bool)
    (F : List FileLine) : St :=
  let max_pages := (max_comments + comments_per_page - 1) / comments_per_page
  collectLoop (reviewSpec fetch_full_content) env book_id max_comments
    max_pages max_pages (initSt F)

/-- Line 661 of get_book_review: `return new_count > 0`. -/
def get_book_review_ret (env : Env ReviewItem) (book_id : String)
    (max_comments comments_per_page : Nat) (fetch_full_content : Bool)
    (F : List FileLine) : Bool :=
  decide (0 < (get_book_review env book_id max_comments comments_per_page
    fetch_full_content F).newCount)

/-- The ids of the persisted records of a stream file, in file order
(record_id is review_id for the comment and review streams). -/
def fileIds (F : List FileLine) : List String :=
  F.filterMap (fun l =>
    match l with
    | FileLine.obj r => r.review_id
    | _ => none)

/-- crawl_single_book (lines 687-708): the whole body is wrapped in
try/except, so an exception anywhere inside one target's run yields
(False, book_name) instead of propagating; `runRaises name` is the oracle
for whether scraper.run (or any other call in the body) raises. -/
def crawl_single_book (runRaises : String → Bool) (book_name : String) :
    Bool × String :=
  if runRaises book_name then (false, book_name) else (true, book_name)

/-- The result-aggregation loop of main (lines 748-764), folded over the
order in which the thread pool completes the targets: a successful task
bumps success_count, a failed one is appended to failed_books. -/
def mainAggregate (runRaises : String → Bool) (order : List String) :
    Nat × List String :=
  order.foldl
    (fun acc name =>
      if (crawl_single_book runRaises name).1 then (acc.1 + 1, acc.2)
      else (acc.1, acc.2 ++ [(crawl_single_book runRaises name).2]))
    (0, [])

/-- ProxyPool state (proxy_pool.py lines 17-19): the loaded proxies, the
validated subset, and the proxies marked failed. -/
structure ProxyPool where
  proxies : List String
  valid_proxies : List String
  failed_proxies : List String
deriving DecidableEq

/-- random.choice(l) with the random draw rnd supplied as an oracle;
meaningful only for nonempty l. -/
def randomChoice (l : List String) (rnd : Nat) : String :=
  l.getD (rnd % l.length) ""

/-- ProxyPool.get_proxy (lines 180-203): prefer a validated proxy not
marked failed, otherwise any loaded proxy not marked failed, otherwise
None; a non-None result is the dict with http and https both set to the
chosen proxy string. -/
def get_proxy (pool : ProxyPool) (rnd : Nat) : Option (String × String) :=
  if pool.valid_proxies ≠ [] ∧
      pool.valid_proxies.filter (fun p => decide (p ∉ pool.failed_proxies)) ≠ [] then
    some (randomChoice
            (pool.valid_proxies.filter (fun p => decide (p ∉ pool.failed_proxies))) rnd,
          randomChoice
            (pool.valid_proxies.filter (fun p => decide (p ∉ pool.failed_proxies))) rnd)
  else if pool.proxies ≠ [] ∧
      pool.proxies.filter (fun p => decide (p ∉ pool.failed_proxies)) ≠ [] then
    some (randomChoice
            (pool.proxies.filter (fun p => decide (p ∉ pool.failed_proxies))) rnd,
          randomChoice
            (pool.proxies.filter (fun p => decide (p ∉ pool.failed_proxies))) rnd)
  else none

/-- ProxyPool.mark_proxy_failed (lines 205-210): add the dict's http entry
to the failed set; a None argument is ignored. -/
def mark_proxy_failed (pool : ProxyPool) (proxy_dict : Option (String × String)) :
    ProxyPool :=
  match proxy_dict with
  | some d => { pool with failed_proxies := insertId pool.failed_proxies d.1 }
  | none => pool

/-- The id `_load_existing_ids` would collect from one line, if any. -/
def lineIdOf : FileLine → Option String
  | FileLine.obj r => recLineId r
  | _ => none

/-- The in-memory index mirrors the stream file: the file has no line whose
parse raises, and rescanning it reproduces existing_ids exactly. -/
def GoodSt (st : St) : Prop :=
  FileLine.bad ∉ st.file ∧ st.existing = load_existing_ids st.file

/-- A stream whose persisted lines give back, on reload, exactly the id
under which the record was deduplicated. The comment stream has this
property; the review stream does not (its lines carry both book_id and
title, so `_load_existing_ids` collects book_id instead of review_id). -/
def SpecGood {α : Type} (S : StreamSpec α) : Prop :=
  ∀ (book_id : String) (it : α),
    S.rid it ≠ "" → recLineId (S.mkLine book_id it) = some (S.rid it)

/- Concrete inputs used by counterexamples and witnesses. -/

/-- A server that answers page 0 with two comments (ids a, b) and every
later page with an empty list; writes always succeed. -/
def envTwoComments : Env CommentItem where
  pages := fun n =>
    if n = 0 then
      PageRes.page [ItemRes.item { rid := "a", content := "x" },
                    ItemRes.item { rid := "b", content := "y" }]
    else PageRes.page []
  appendOk := fun _ => true

/-- A reviews.jsonl holding one already-persisted review of book 456 with
review_id 123 (review lines carry book_id, title, review_id and content). -/
def fileOneReview : List FileLine :=
  [FileLine.obj { book_id := some "456", title := some "T",
                  review_id := some "123", content := some "c" }]

/-- A server that answers page 0 with the same review 123 again and every
later page with an empty list; writes always succeed. -/
def envReview123 : Env ReviewItem where
  pages := fun n =>
    if n = 0 then
      PageRes.page [ItemRes.item { rid := "123", title := "T2", content := "s",
                                   review_url := "", detail := DetailFetch.ok none }]
    else PageRes.page []
  appendOk := fun _ => true

/-- A server with no reviews at all; writes always succeed. -/
def envNoReviews : Env ReviewItem where
  pages := fun _ => PageRes.page []
  appendOk := fun _ => true

/-- A well-formed comment-stream line with id a. -/
def lineIdA : FileLine :=
  FileLine.obj { book_id := none, title := none, review_id := some "a", content := none }

/-- A well-formed comment-stream line with id b. -/
def lineIdB : FileLine :=
  FileLine.obj { book_id := none, title := none, review_id := some "b", content := none }

/-- A stream file with a malformed line between two well-formed ones. -/
def fileWithBadLine : List FileLine :=
  [lineIdA, FileLine.bad, lineIdB]

/-- An environment whose writes always fail (every `_append_to_jsonl` call
raises); the server never answers. -/
def envAppendFail : Env CommentItem where
  pages := fun _ => PageRes.fetchErr
  appendOk := fun _ => false

/-- A review item with a review_url whose secondary full-content fetch
raises. -/
def reviewItemDetailFail : ReviewItem :=
  { rid := "9", title := "t", content := "summary",
    review_url := "https://book.douban.com/review/9/", detail := DetailFetch.fail }

/-- A proxy pool with one validated proxy and one failed raw proxy. -/
def poolW : ProxyPool :=
  { proxies := ["http://1.1.1.1:80", "http://2.2.2.2:80"]
    valid_proxies := ["http://1.1.1.1:80"]
    failed_proxies := ["http://2.2.2.2:80"] }

/- ===== Lemmas about the dedup index ===== -/

lemma mem_insertId {s : List String} {x y : String} :
    y ∈ insertId s x ↔ y = x ∨ y ∈ s := by
  unfold insertId
  split
  · rename_i hx
    constructor
    · exact fun h => Or.inr h
    · intro h
      cases h with
      | inl h => exact h ▸ hx
      | inr h => exact h
  · simp [List.mem_cons]

lemma subset_insertId (s : List String) (x : String) : s ⊆ insertId s x :=
  fun _ hy => mem_insertId.mpr (Or.inr hy)

lemma self_mem_insertId (s : List String) (x : String) : x ∈ insertId s x :=
  mem_insertId.mpr (Or.inl rfl)

lemma loadScan_acc_subset : ∀ (F : List FileLine) (acc : List String),
    acc ⊆ loadScan F acc := by
  intro F
  induction F with
  | nil => exact fun acc _ h => h
  | cons l rest ih =>
      intro acc
      cases l with
      | blank => exact ih acc
      | bad => exact fun _ h => h
      | obj r =>
          cases hid : recLineId r with
          | none => simpa [loadScan, hid] using ih acc
          | some i =>
              have h1 : acc ⊆ insertId acc i := subset_insertId acc i
              have h2 := ih (insertId acc i)
              simpa [loadScan, hid] using fun x hx => h2 (h1 hx)

lemma loadScan_trunc : ∀ (pre suf : List FileLine) (acc : List String),
    loadScan (pre ++ FileLine.bad :: suf) acc = loadScan pre acc := by
  intro pre
  induction pre with
  | nil => intro suf acc; rfl
  | cons l rest ih =>
      intro suf acc
      cases l with
      | blank => simpa [loadScan] using ih suf acc
      | bad => rfl
      | obj r => simpa [loadScan] using ih suf _

lemma loadScan_append : ∀ (F G : List FileLine) (acc : List String),
    FileLine.bad ∉ F → loadScan (F ++ G) acc = loadScan G (loadScan F acc) := by
  intro F
  induction F with
  | nil => intro G acc _; rfl
  | cons l rest ih =>
      intro G acc h
      have hrest : FileLine.bad ∉ rest := fun hc => h (List.mem_cons_of_mem _ hc)
      cases l with
      | blank => simpa [loadScan] using ih G acc hrest
      | bad => exact absurd (List.mem_cons_self _ _) h
      | obj r => simpa [loadScan] using ih G _ hrest

lemma load_existing_ids_snoc {F : List FileLine} {r : RecLine} {i : String}
    (hF : FileLine.bad ∉ F) (hr : recLineId r = some i) :
    load_existing_ids (F ++ [FileLine.obj r]) = insertId (load_existing_ids F) i := by
  unfold load_existing_ids
  rw [loadScan_append F [FileLine.obj r] [] hF]
  simp [loadScan, hr]

lemma loadScan_complete : ∀ (F : List FileLine) (acc : List String),
    FileLine.bad ∉ F → ∀ l ∈ F, ∀ i, lineIdOf l = some i → i ∈ loadScan F acc := by
  intro F
  induction F with
  | nil => intro acc _ l hl; exact absurd hl (List.not_mem_nil l)
  | cons hd rest ih =>
      intro acc h l hl i hi
      have hrest : FileLine.bad ∉ rest := fun hc => h (List.mem_cons_of_mem _ hc)
      rcases List.mem_cons.mp hl with heq | hmem
      · subst heq
        cases l with
        | blank => simp [lineIdOf] at hi
        | bad => simp [lineIdOf] at hi
        | obj r =>
            have : recLineId r = some i := hi
            have hmem2 : i ∈ insertId acc i := self_mem_insertId acc i
            simpa [loadScan, this] using loadScan_acc_subset rest (insertId acc i) hmem2
      · cases hd with
        | blank => exact ih acc hrest l hmem i hi
        | bad => exact absurd (List.mem_cons_self _ _) h
        | obj r =>
            cases hid : recLineId r with
            | none => simpa [loadScan, hid] using ih acc hrest l hmem i hi
            | some j => simpa [loadScan, hid] using ih (insertId acc j) hrest l hmem i hi

lemma load_existing_ids_complete {F : List FileLine} (hF : FileLine.bad ∉ F) :
    ∀ l ∈ F, ∀ i, lineIdOf l = some i → i ∈ load_existing_ids F :=
  loadScan_complete F [] hF

/- ===== Lemmas about one record step ===== -/

lemma recordStep_eq {α : Type} (S : StreamSpec α) (env : Env α) (book_id : String)
    (max_comments : Nat) (it : α) (st : St) (pageNew : Nat) :
    recordStep S env book_id max_comments it st pageNew =
      if S.rid it = "" ∨ S.rid it ∈ st.existing then (st, pageNew, false)
      else if env.appendOk st.tick then
        ({ st with file := st.file ++ [FileLine.obj (S.mkLine book_id it)]
                   existing := insertId st.existing (S.rid it)
                   newCount := st.newCount + 1
                   tick := st.tick + 1 },
         pageNew + 1, decide (max_comments ≤ st.newCount + 1))
      else
        ({ st with tick := st.tick + 1 }, pageNew,
         decide (max_comments ≤ st.newCount)) := by
  unfold recordStep append_to_jsonl
  split
  · rfl
  · cases h : env.appendOk st.tick <;> simp [h]

lemma recordStep_frame {α : Type} (S : StreamSpec α) (env : Env α) (book_id : String)
    (max_comments : Nat) (it : α) (st : St) (pageNew : Nat) :
    (recordStep S env book_id max_comments it st pageNew).1.pageCount = st.pageCount ∧
    (recordStep S env book_id max_comments it st pageNew).1.fetched = st.fetched ∧
    (recordStep S env book_id max_comments it st pageNew).1.pageNews = st.pageNews := by
  rw [recordStep_eq]
  split_ifs <;> simp

lemma recordStep_existing_mono {α : Type} (S : StreamSpec α) (env : Env α)
    (book_id : String) (max_comments : Nat) (it : α) (st : St) (pageNew : Nat) :
    st.existing ⊆ (recordStep S env book_id max_comments it st pageNew).1.existing := by
  rw [recordStep_eq]
  split_ifs <;> simp
  exact subset_insertId _ _

lemma recordStep_newCount_mono {α : Type} (S : StreamSpec α) (env : Env α)
    (book_id : String) (max_comments : Nat) (it : α) (st : St) (pageNew : Nat) :
    st.newCount ≤ (recordStep S env book_id max_comments it st pageNew).1.newCount := by
  rw [recordStep_eq]
  split_ifs <;> simp

lemma recordStep_sync {α : Type} (S : StreamSpec α) (env : Env α)
    (book_id : String) (max_comments : Nat) (it : α) (st : St) (pageNew : Nat) :
    (recordStep S env book_id max_comments it st pageNew).1.file.length + st.newCount =
      st.file.length + (recordStep S env book_id max_comments it st pageNew).1.newCount := by
  rw [recordStep_eq]
  split_ifs <;> simp <;> omega

lemma recordStep_GoodSt {α : Type} {S : StreamSpec α} (env : Env α)
    (book_id : String) (max_comments : Nat) (it : α) (st : St) (pageNew : Nat)
    (hS : SpecGood S) (h : GoodSt st) :
    GoodSt (recordStep S env book_id max_comments it st pageNew).1 := by
  rw [recordStep_eq]
  split_ifs with h1 h2
  · exact h
  · have hrid : S.rid it ≠ "" := fun hc => h1 (Or.inl hc)
    constructor
    · simp [GoodSt] at h ⊢
      exact h.1
    · show insertId st.existing (S.rid it) =
        load_existing_ids (st.file ++ [FileLine.obj (S.mkLine book_id it)])
      rw [load_existing_ids_snoc h.1 (hS book_id it hrid), h.2]
  · exact h

/- ===== Lemmas about the inner for-loop ===== -/

lemma processItems_frame {α : Type} (S : StreamSpec α) (env : Env α)
    (book_id : String) (max_comments : Nat) :
    ∀ (items : List (ItemRes α)) (st : St) (pageNew : Nat),
    (processItems S env book_id max_comments items st pageNew).1.pageCount = st.pageCount ∧
    (processItems S env book_id max_comments items st pageNew).1.fetched = st.fetched ∧
    (processItems S env book_id max_comments items st pageNew).1.pageNews = st.pageNews := by
  intro items
  induction items with
  | nil => intro st pageNew; exact ⟨rfl, rfl, rfl⟩
  | cons hd rest ih =>
      intro st pageNew
      cases hd with
      | err => exact ih st pageNew
      | item it =>
          have hr := recordStep_frame S env book_id max_comments it st pageNew
          unfold processItems
          split
          · exact hr
          · have hi := ih (recordStep S env book_id max_comments it st pageNew).1
              (recordStep S env book_id max_comments it st pageNew).2.1
            exact ⟨hi.1.trans hr.1, hi.2.1.trans hr.2.1, hi.2.2.trans hr.2.2⟩

lemma processItems_existing_mono {α : Type} (S : StreamSpec α) (env : Env α)
    (book_id : String) (max_comments : Nat) :
    ∀ (items : List (ItemRes α)) (st : St) (pageNew : Nat),
    st.existing ⊆ (processItems S env book_id max_comments items st pageNew).1.existing := by
  intro items
  induction items with
  | nil => intro st pageNew; exact fun _ h => h
  | cons hd rest ih =>
      intro st pageNew
      cases hd with
      | err => exact ih st pageNew
      | item it =>
          have hr := recordStep_existing_mono S env book_id max_comments it st pageNew
          unfold processItems
          split
          · exact hr
          · exact fun x hx => ih _ _ (hr hx)

lemma processItems_newCount_mono {α : Type} (S : StreamSpec α) (env : Env α)
    (book_id : String) (max_comments : Nat) :
    ∀ (items : List (ItemRes α)) (st : St) (pageNew : Nat),
    st.newCount ≤ (processItems S env book_id max_comments items st pageNew).1.newCount := by
  intro items
  induction items with
  | nil => intro st pageNew; exact le_refl _
  | cons hd rest ih =>
      intro st pageNew
      cases hd with
      | err => exact ih st pageNew
      | item it =>
          have hr := recordStep_newCount_mono S env book_id max_comments it st pageNew
          unfold processItems
          split
          · exact hr
          · exact hr.trans (ih _ _)

lemma processItems_sync {α : Type} (S : StreamSpec α) (env : Env α)
    (book_id : String) (max_comments : Nat) :
    ∀ (items : List (ItemRes α)) (st : St) (pageNew : Nat),
    (processItems S env book_id max_comments items st pageNew).1.file.length + st.newCount =
      st.file.length + (processItems S env book_id max_comments items st pageNew).1.newCount := by
  intro items
  induction items with
  | nil => intro st pageNew; rfl
  | cons hd rest ih =>
      intro st pageNew
      cases hd with
      | err => exact ih st pageNew
      | item it =>
          have hr := recordStep_sync S env book_id max_comments it st pageNew
          unfold processItems
          split
          · exact hr
          · have hi := ih (recordStep S env book_id max_comments it st pageNew).1
              (recordStep S env book_id max_comments it st pageNew).2.1
            omega

lemma processItems_GoodSt {α : Type} {S : StreamSpec α} (env : Env α)
    (book_id : String) (max_comments : Nat) (hS : SpecGood S) :
    ∀ (items : List (ItemRes α)) (st : St) (pageNew : Nat), GoodSt st →
    GoodSt (processItems S env book_id max_comments items st pageNew).1 := by
  intro items
  induction items with
  | nil => intro st pageNew h; exact h
  | cons hd rest ih =>
      intro st pageNew h
      cases hd with
      | err => exact ih st pageNew h
      | item it =>
          have hr := recordStep_GoodSt env book_id max_comments it st pageNew hS h
          unfold processItems
          split
          · exact hr
          · exact ih _ _ hr

lemma processItems_cons_err {α : Type} (S : StreamSpec α) (env : Env α)
    (book_id : String) (max_comments : Nat) (rest : List (ItemRes α))
    (st : St) (pageNew : Nat) :
    processItems S env book_id max_comments (ItemRes.err :: rest) st pageNew =
      processItems S env book_id max_comments rest st pageNew := rfl

lemma processItems_cons_item {α : Type} (S : StreamSpec α) (env : Env α)
    (book_id : String) (max_comments : Nat) (a : α) (rest : List (ItemRes α))
    (st : St) (pageNew : Nat) :
    processItems S env book_id max_comments (ItemRes.item a :: rest) st pageNew =
      if (recordStep S env book_id max_comments a st pageNew).2.2 then
        ((recordStep S env book_id max_comments a st pageNew).1,
         (recordStep S env book_id max_comments a st pageNew).2.1)
      else
        processItems S env book_id max_comments rest
          (recordStep S env book_id max_comments a st pageNew).1
          (recordStep S env book_id max_comments a st pageNew).2.1 := rfl

/-- With every write succeeding, any record of the page whose id is
non-empty ends up in existing_ids — unless the inner loop broke early on
reaching the target, in which case the final new_count is at least
max_comments. -/
lemma processItems_coverage {α : Type} (S : StreamSpec α) (env : Env α)
    (book_id : String) (max_comments : Nat)
    (hAO : ∀ t, env.appendOk t = true) :
    ∀ (items : List (ItemRes α)) (st : St) (pageNew : Nat),
    (processItems S env book_id max_comments items st pageNew).1.newCount < max_comments →
    ∀ it : α, ItemRes.item it ∈ items → S.rid it ≠ "" →
    S.rid it ∈ (processItems S env book_id max_comments items st pageNew).1.existing := by
  intro items
  induction items with
  | nil => intro st pageNew hlt it hmem; exact absurd hmem (List.not_mem_nil _)
  | cons hd rest ih =>
      intro st pageNew hlt it hmem hrid
      cases hd with
      | err =>
          rcases List.mem_cons.mp hmem with heq | hmem2
          · exact absurd heq (by simp)
          · exact ih st pageNew hlt it hmem2 hrid
      | item a =>
          by_cases hdup : S.rid a = "" ∨ S.rid a ∈ st.existing
          · have hstep : recordStep S env book_id max_comments a st pageNew =
                (st, pageNew, false) := by
              rw [recordStep_eq, if_pos hdup]
            rw [processItems_cons_item, hstep] at hlt ⊢
            simp only [Bool.false_eq_true, if_false] at hlt ⊢
            rcases List.mem_cons.mp hmem with heq | hmem2
            · obtain rfl : it = a := by injection heq
              have hin : S.rid it ∈ st.existing := by
                rcases hdup with hc | hc
                · exact absurd hc hrid
                · exact hc
              exact processItems_existing_mono S env book_id max_comments rest st pageNew hin
            · exact ih st pageNew hlt it hmem2 hrid
          · have hstep : recordStep S env book_id max_comments a st pageNew =
                ({ st with file := st.file ++ [FileLine.obj (S.mkLine book_id a)]
                           existing := insertId st.existing (S.rid a)
                           newCount := st.newCount + 1
                           tick := st.tick + 1 },
                 pageNew + 1, decide (max_comments ≤ st.newCount + 1)) := by
              rw [recordStep_eq, if_neg hdup, if_pos (hAO st.tick)]
            by_cases hbr : max_comments ≤ st.newCount + 1
            · exfalso
              rw [processItems_cons_item, hstep] at hlt
              simp [hbr] at hlt
              omega
            · rw [processItems_cons_item, hstep] at hlt ⊢
              simp only [decide_eq_false hbr, Bool.false_eq_true, if_false] at hlt ⊢
              rcases List.mem_cons.mp hmem with heq | hmem2
              · obtain rfl : it = a := by injection heq
                exact processItems_existing_mono S env book_id max_comments rest _ _
                  (self_mem_insertId st.existing (S.rid it))
              · exact ih _ _ hlt it hmem2 hrid

/-- A page all of whose extracted records carry an empty or already-seen id
accepts nothing and leaves the state untouched. -/
lemma processItems_all_dup {α : Type} (S : StreamSpec α) (env : Env α)
    (book_id : String) (max_comments : Nat) :
    ∀ (items : List (ItemRes α)) (st : St) (pageNew : Nat),
    (∀ it : α, ItemRes.item it ∈ items → S.rid it = "" ∨ S.rid it ∈ st.existing) →
    processItems S env book_id max_comments items st pageNew = (st, pageNew) := by
  intro items
  induction items with
  | nil => intro st pageNew _; rfl
  | cons hd rest ih =>
      intro st pageNew hall
      cases hd with
      | err => exact ih st pageNew (fun it h => hall it (List.mem_cons_of_mem _ h))
      | item a =>
          have hstep : recordStep S env book_id max_comments a st pageNew = (st, pageNew, false) := by
            rw [recordStep_eq, if_pos (hall a (List.mem_cons_self _ _))]
          unfold processItems
          rw [hstep]
          simp only [Bool.false_eq_true, if_false]
          exact ih st pageNew (fun it h => hall it (List.mem_cons_of_mem _ h))

/- ===== Lemmas about one loop iteration ===== -/

lemma pageStep_fetchErr {α : Type} (S : StreamSpec α) (env : Env α)
    (book_id : String) (max_comments : Nat) (st : St)
    (h : env.pages st.pageCount = PageRes.fetchErr) :
    pageStep S env book_id max_comments st =
      ({ st with fetched := st.fetched ++ [st.pageCount] }, false) := by
  unfold pageStep
  rw [h]

lemma pageStep_page {α : Type} (S : StreamSpec α) (env : Env α)
    (book_id : String) (max_comments : Nat) (st : St) (items : List (ItemRes α))
    (h : env.pages st.pageCount = PageRes.page items) :
    pageStep S env book_id max_comments st =
      if items.isEmpty then ({ st with fetched := st.fetched ++ [st.pageCount] }, false)
      else
        pageFinish max_comments
          (processItems S env book_id max_comments items
            { st with fetched := st.fetched ++ [st.pageCount] } 0) := by
  unfold pageStep
  rw [h]

lemma pageStep_fetched {α : Type} (S : StreamSpec α) (env : Env α)
    (book_id : String) (max_comments : Nat) (st : St) :
    (pageStep S env book_id max_comments st).1.fetched = st.fetched ++ [st.pageCount] := by
  rcases hp : env.pages st.pageCount with _ | items
  · rw [pageStep_fetchErr S env book_id max_comments st hp]
  · rw [pageStep_page S env book_id max_comments st items hp]
    split_ifs
    · rfl
    · have hfr := (processItems_frame S env book_id max_comments items
        { st with fetched := st.fetched ++ [st.pageCount] } 0).2.1
      simp [pageFinish, hfr]

lemma pageStep_continue_pageCount {α : Type} (S : StreamSpec α) (env : Env α)
    (book_id : String) (max_comments : Nat) (st : St) :
    (pageStep S env book_id max_comments st).2 = true →
    (pageStep S env book_id max_comments st).1.pageCount = st.pageCount + 1 := by
  rcases hp : env.pages st.pageCount with _ | items
  · rw [pageStep_fetchErr S env book_id max_comments st hp]
    intro hc
    simp at hc
  · rw [pageStep_page S env book_id max_comments st items hp]
    split_ifs
    · intro hc; simp at hc
    · intro _
      have hfr := (processItems_frame S env book_id max_comments items
        { st with fetched := st.fetched ++ [st.pageCount] } 0).1
      simp [pageFinish, hfr]

lemma pageStep_existing_mono {α : Type} (S : StreamSpec α) (env : Env α)
    (book_id : String) (max_comments : Nat) (st : St) :
    st.existing ⊆ (pageStep S env book_id max_comments st).1.existing := by
  rcases hp : env.pages st.pageCount with _ | items
  · rw [pageStep_fetchErr S env book_id max_comments st hp]
    exact fun _ hx => hx
  · rw [pageStep_page S env book_id max_comments st items hp]
    split_ifs
    · exact fun _ hx => hx
    · have hmono := processItems_existing_mono S env book_id max_comments items
        { st with fetched := st.fetched ++ [st.pageCount] } 0
      simpa [pageFinish] using hmono

lemma pageStep_newCount_mono {α : Type} (S : StreamSpec α) (env : Env α)
    (book_id : String) (max_comments : Nat) (st : St) :
    st.newCount ≤ (pageStep S env book_id max_comments st).1.newCount := by
  rcases hp : env.pages st.pageCount with _ | items
  · rw [pageStep_fetchErr S env book_id max_comments st hp]
  · rw [pageStep_page S env book_id max_comments st items hp]
    split_ifs
    · exact le_refl _
    · have hmono := processItems_newCount_mono S env book_id max_comments items
        { st with fetched := st.fetched ++ [st.pageCount] } 0
      simpa [pageFinish] using hmono

lemma pageStep_sync {α : Type} (S : StreamSpec α) (env : Env α)
    (book_id : String) (max_comments : Nat) (st : St) :
    (pageStep S env book_id max_comments st).1.file.length + st.newCount =
      st.file.length + (pageStep S env book_id max_comments st).1.newCount := by
  rcases hp : env.pages st.pageCount with _ | items
  · rw [pageStep_fetchErr S env book_id max_comments st hp]
  · rw [pageStep_page S env book_id max_comments st items hp]
    split_ifs
    · rfl
    · have hsync := processItems_sync S env book_id max_comments items
        { st with fetched := st.fetched ++ [st.pageCount] } 0
      simpa [pageFinish] using hsync

lemma pageStep_GoodSt {α : Type} {S : StreamSpec α} (env : Env α)
    (book_id : String) (max_comments : Nat) (st : St)
    (hS : SpecGood S) (h : GoodSt st) :
    GoodSt (pageStep S env book_id max_comments st).1 := by
  have hst0 : GoodSt { st with fetched := st.fetched ++ [st.pageCount] } := h
  rcases hp : env.pages st.pageCount with _ | items
  · rw [pageStep_fetchErr S env book_id max_comments st hp]
    exact hst0
  · rw [pageStep_page S env book_id max_comments st items hp]
    split_ifs
    · exact hst0
    · have hgood := processItems_GoodSt env book_id max_comments hS items
        { st with fetched := st.fetched ++ [st.pageCount] } 0 hst0
      simpa [pageFinish, GoodSt] using hgood

lemma pageStep_pageNews {α : Type} (S : StreamSpec α) (env : Env α)
    (book_id : String) (max_comments : Nat) (st : St) :
    (pageStep S env book_id max_comments st).1.pageNews = st.pageNews ∨
    ∃ k, (pageStep S env book_id max_comments st).1.pageNews = st.pageNews ++ [k] := by
  rcases hp : env.pages st.pageCount with _ | items
  · rw [pageStep_fetchErr S env book_id max_comments st hp]
    exact Or.inl rfl
  · rw [pageStep_page S env book_id max_comments st items hp]
    split_ifs
    · exact Or.inl rfl
    · have hfr := (processItems_frame S env book_id max_comments items
        { st with fetched := st.fetched ++ [st.pageCount] } 0).2.2
      refine Or.inr ⟨(processItems S env book_id max_comments items
        { st with fetched := st.fetched ++ [st.pageCount] } 0).2, ?_⟩
      simp [pageFinish, hfr]

lemma pageStep_continue_pageNews {α : Type} (S : StreamSpec α) (env : Env α)
    (book_id : String) (max_comments : Nat) (st : St) :
    (pageStep S env book_id max_comments st).2 = true →
    ∃ k, k ≠ 0 ∧
      (pageStep S env book_id max_comments st).1.pageNews = st.pageNews ++ [k] := by
  rcases hp : env.pages st.pageCount with _ | items
  · rw [pageStep_fetchErr S env book_id max_comments st hp]
    intro hc
    simp at hc
  · rw [pageStep_page S env book_id max_comments st items hp]
    split_ifs
    · intro hc; simp at hc
    · intro hcont
      have hfr := (processItems_frame S env book_id max_comments items
        { st with fetched := st.fetched ++ [st.pageCount] } 0).2.2
      simp only [pageFinish, Bool.and_eq_true, decide_eq_true_eq, Bool.not_eq_eq_eq_not,
        Bool.not_true, decide_eq_false_iff_not] at hcont
      refine ⟨(processItems S env book_id max_comments items
        { st with fetched := st.fetched ++ [st.pageCount] } 0).2, ?_, ?_⟩
      · exact hcont.1
      · simp [pageFinish, hfr]

/- ===== Lemmas about the whole pagination loop ===== -/

lemma collectLoop_stop {α : Type} (S : StreamSpec α) (env : Env α)
    (book_id : String) (max_comments max_pages : Nat) (st : St)
    (h : ¬(st.pageCount < max_pages ∧ st.newCount < max_comments)) :
    ∀ fuel, collectLoop S env book_id max_comments max_pages fuel st = st := by
  intro fuel
  cases fuel with
  | zero => rfl
  | succ f =>
      unfold collectLoop
      rw [if_neg h]

lemma collectLoop_existing_mono {α : Type} (S : StreamSpec α) (env : Env α)
    (book_id : String) (max_comments max_pages : Nat) :
    ∀ (fuel : Nat) (st : St),
    st.existing ⊆ (collectLoop S env book_id max_comments max_pages fuel st).existing := by
  intro fuel
  induction fuel with
  | zero => exact fun st _ hx => hx
  | succ f ih =>
      intro st
      unfold collectLoop
      split_ifs with hcond hps
      · exact fun x hx => ih _ (pageStep_existing_mono S env book_id max_comments st hx)
      · exact pageStep_existing_mono S env book_id max_comments st
      · exact fun _ hx => hx

lemma collectLoop_newCount_mono {α : Type} (S : StreamSpec α) (env : Env α)
    (book_id : String) (max_comments max_pages : Nat) :
    ∀ (fuel : Nat) (st : St),
    st.newCount ≤ (collectLoop S env book_id max_comments max_pages fuel st).newCount := by
  intro fuel
  induction fuel with
  | zero => exact fun st => le_refl _
  | succ f ih =>
      intro st
      unfold collectLoop
      split_ifs with hcond hps
      · exact (pageStep_newCount_mono S env book_id max_comments st).trans (ih _)
      · exact pageStep_newCount_mono S env book_id max_comments st
      · exact le_refl _

lemma collectLoop_GoodSt {α : Type} {S : StreamSpec α} (env : Env α)
    (book_id : String) (max_comments max_pages : Nat) (hS : SpecGood S) :
    ∀ (fuel : Nat) (st : St), GoodSt st →
    GoodSt (collectLoop S env book_id max_comments max_pages fuel st) := by
  intro fuel
  induction fuel with
  | zero => exact fun st h => h
  | succ f ih =>
      intro st h
      unfold collectLoop
      split_ifs with hcond hps
      · exact ih _ (pageStep_GoodSt env book_id max_comments st hS h)
      · exact pageStep_GoodSt env book_id max_comments st hS h
      · exact h

lemma collectLoop_sync {α : Type} (S : StreamSpec α) (env : Env α)
    (book_id : String) (max_comments max_pages : Nat) :
    ∀ (fuel : Nat) (st : St),
    (collectLoop S env book_id max_comments max_pages fuel st).file.length + st.newCount =
      st.file.length + (collectLoop S env book_id max_comments max_pages fuel st).newCount := by
  intro fuel
  induction fuel with
  | zero => exact fun st => rfl
  | succ f ih =>
      intro st
      unfold collectLoop
      split_ifs with hcond hps
      · have h1 := pageStep_sync S env book_id max_comments st
        have h2 := ih (pageStep S env book_id max_comments st).1
        omega
      · exact pageStep_sync S env book_id max_comments st
      · rfl

lemma collectLoop_fetched_bound {α : Type} (S : StreamSpec α) (env : Env α)
    (book_id : String) (max_comments max_pages : Nat) :
    ∀ (fuel : Nat) (st : St),
    (collectLoop S env book_id max_comments max_pages fuel st).fetched.length ≤
      st.fetched.length + (max_pages - st.pageCount) := by
  intro fuel
  induction fuel with
  | zero => exact fun st => Nat.le_add_right _ _
  | succ f ih =>
      intro st
      unfold collectLoop
      split_ifs with hcond hps
      · have h1 := ih (pageStep S env book_id max_comments st).1
        have h2 := pageStep_fetched S env book_id max_comments st
        have h3 := pageStep_continue_pageCount S env book_id max_comments st hps
        rw [h2, h3] at h1
        simp only [List.length_append, List.length_singleton] at h1
        have h4 : st.pageCount < max_pages := hcond.1
        omega
      · have h2 := pageStep_fetched S env book_id max_comments st
        rw [h2]
        simp only [List.length_append, List.length_singleton]
        have h4 : st.pageCount < max_pages := hcond.1
        omega
      · exact Nat.le_add_right _ _

lemma collectLoop_fuel_eq {α : Type} (S : StreamSpec α) (env : Env α)
    (book_id : String) (max_comments max_pages : Nat) :
    ∀ (f1 f2 : Nat) (st : St),
    max_pages ≤ st.pageCount + f1 → max_pages ≤ st.pageCount + f2 →
    collectLoop S env book_id max_comments max_pages f1 st =
      collectLoop S env book_id max_comments max_pages f2 st := by
  intro f1
  induction f1 with
  | zero =>
      intro f2 st h1 h2
      have hstop : ¬(st.pageCount < max_pages ∧ st.newCount < max_comments) := by
        intro hc
        omega
      rw [collectLoop_stop S env book_id max_comments max_pages st hstop 0,
          collectLoop_stop S env book_id max_comments max_pages st hstop f2]
  | succ f ihf =>
      intro f2 st h1 h2
      by_cases hcond : st.pageCount < max_pages ∧ st.newCount < max_comments
      · cases f2 with
        | zero =>
            exfalso
            have := hcond.1
            omega
        | succ g =>
            unfold collectLoop
            rw [if_pos hcond, if_pos hcond]
            by_cases hps : (pageStep S env book_id max_comments st).2 = true
            · rw [if_pos hps, if_pos hps]
              have hpc := pageStep_continue_pageCount S env book_id max_comments st hps
              apply ihf g
              · rw [hpc]; omega
              · rw [hpc]; omega
            · rw [if_neg hps, if_neg hps]
      · rw [collectLoop_stop S env book_id max_comments max_pages st hcond (f + 1),
            collectLoop_stop S env book_id max_comments max_pages st hcond f2]

lemma collectLoop_pageNews_inv {α : Type} (S : StreamSpec α) (env : Env α)
    (book_id : String) (max_comments max_pages : Nat) :
    ∀ (fuel : Nat) (st : St),
    (∀ n ∈ st.pageNews, n ≠ 0) → st.fetched.length = st.pageNews.length →
    (∀ n ∈ (collectLoop S env book_id max_comments max_pages fuel st).pageNews.dropLast, n ≠ 0) ∧
    ((collectLoop S env book_id max_comments max_pages fuel st).pageNews.getLast? = some 0 →
      (collectLoop S env book_id max_comments max_pages fuel st).fetched.length =
        (collectLoop S env book_id max_comments max_pages fuel st).pageNews.length) := by
  intro fuel
  induction fuel with
  | zero =>
      intro st hall hlen
      constructor
      · exact fun n hn => hall n ((List.dropLast_sublist st.pageNews).subset hn)
      · intro hlast
        exact absurd rfl (hall 0 (List.mem_of_mem_getLast? hlast))
  | succ f ih =>
      intro st hall hlen
      unfold collectLoop
      split_ifs with hcond hps
      · rcases pageStep_continue_pageNews S env book_id max_comments st hps with ⟨k, hk, hpn⟩
        apply ih
        · rw [hpn]
          intro n hn
          rcases List.mem_append.mp hn with h | h
          · exact hall n h
          · have hnk : n = k := List.mem_singleton.mp h
            subst hnk
            exact hk
        · rw [pageStep_fetched S env book_id max_comments st, hpn]
          simp [hlen]
      · rcases pageStep_pageNews S env book_id max_comments st with hsame | ⟨k, hpn⟩
        · constructor
          · rw [hsame]
            exact fun n hn => hall n ((List.dropLast_sublist _).subset hn)
          · rw [hsame]
            intro hlast
            exact absurd rfl (hall 0 (List.mem_of_mem_getLast? hlast))
        · constructor
          · rw [hpn, List.dropLast_concat]
            exact hall
          · intro _
            rw [pageStep_fetched S env book_id max_comments st, hpn]
            simp [hlen]
      · constructor
        · exact fun n hn => hall n ((List.dropLast_sublist _).subset hn)
        · intro hlast
          exact absurd rfl (hall 0 (List.mem_of_mem_getLast? hlast))

/- ===== Unfolding helpers and stream facts ===== -/

lemma get_book_comments_def (env : Env CommentItem) (book_id : String)
    (max_comments comments_per_page : Nat) (F : List FileLine) :
    get_book_comments env book_id max_comments comments_per_page F =
      collectLoop commentSpec env book_id max_comments
        ((max_comments + comments_per_page - 1) / comments_per_page)
        ((max_comments + comments_per_page - 1) / comments_per_page) (initSt F) := rfl

lemma get_book_review_def (env : Env ReviewItem) (book_id : String)
    (max_comments comments_per_page : Nat) (fetch_full_content : Bool)
    (F : List FileLine) :
    get_book_review env book_id max_comments comments_per_page fetch_full_content F =
      collectLoop (reviewSpec fetch_full_content) env book_id max_comments
        ((max_comments + comments_per_page - 1) / comments_per_page)
        ((max_comments + comments_per_page - 1) / comments_per_page) (initSt F) := rfl

lemma collectLoop_succ {α : Type} (S : StreamSpec α) (env : Env α)
    (book_id : String) (max_comments max_pages fuel : Nat) (st : St)
    (h : st.pageCount < max_pages ∧ st.newCount < max_comments) :
    collectLoop S env book_id max_comments max_pages (fuel + 1) st =
      if (pageStep S env book_id max_comments st).2 then
        collectLoop S env book_id max_comments max_pages fuel
          (pageStep S env book_id max_comments st).1
      else (pageStep S env book_id max_comments st).1 := by
  conv_lhs => rw [collectLoop]
  rw [if_pos h]

lemma initSt_GoodSt (F : List FileLine) (hF : FileLine.bad ∉ F) :
    GoodSt (initSt F) := ⟨hF, rfl⟩

lemma commentSpec_SpecGood : SpecGood commentSpec := by
  intro book_id it hrid
  have h : it.rid ≠ "" := hrid
  simp [commentSpec, recLineId, h]

/- ===== Claim theorems ===== -/

/-- C1: the claim says each collector run drops records whose id is already
in the index loaded at start, keeping record_id values unique in the output
file. For get_book_review the code violates this: review lines carry both
book_id and title, so `_load_existing_ids` rebuilds the index from book_id
values instead of review_id values, and a review already on disk is
re-appended — this theorem evaluates the code at the failing input:
reviews.jsonl holds review 123 of book 456 (unique ids), the server returns
review 123 again, and after the run review_id 123 appears twice. -/
theorem C1_review_dedup_broken :
    (fileIds fileOneReview).Nodup ∧
    load_existing_ids fileOneReview = ["456"] ∧
    fileIds (get_book_review envReview123 "456" 5 20 true fileOneReview).file =
      ["123", "123"] ∧
    ¬ (fileIds (get_book_review envReview123 "456" 5 20 true fileOneReview).file).Nodup := by
  decide

/-- C2: for every target count and positive page size, both collector loops
run at most max_pages = (max_comments + comments_per_page - 1) /
comments_per_page iterations, max_pages is the ceiling of
max_comments / comments_per_page (characterized as the least k with
max_comments ≤ k * comments_per_page), and the fuel given to the loop is
irrelevant beyond max_pages, so the loop always terminates. -/
theorem C2_loop_iteration_bound (envC : Env CommentItem) (envR : Env ReviewItem)
    (book_id : String) (max_comments comments_per_page : Nat)
    (fetch_full_content : Bool) (F G : List FileLine)
    (hcpp : 0 < comments_per_page) :
    (get_book_comments envC book_id max_comments comments_per_page F).fetched.length ≤
      (max_comments + comments_per_page - 1) / comments_per_page ∧
    (get_book_review envR book_id max_comments comments_per_page
        fetch_full_content G).fetched.length ≤
      (max_comments + comments_per_page - 1) / comments_per_page ∧
    (∀ k, (max_comments + comments_per_page - 1) / comments_per_page ≤ k ↔
      max_comments ≤ k * comments_per_page) ∧
    (∀ fuel, (max_comments + comments_per_page - 1) / comments_per_page ≤ fuel →
      collectLoop commentSpec envC book_id max_comments
          ((max_comments + comments_per_page - 1) / comments_per_page) fuel (initSt F) =
        get_book_comments envC book_id max_comments comments_per_page F) := by
  refine ⟨?_, ?_, ?_, ?_⟩
  · rw [get_book_comments_def]
    have h := collectLoop_fetched_bound commentSpec envC book_id max_comments
      ((max_comments + comments_per_page - 1) / comments_per_page)
      ((max_comments + comments_per_page - 1) / comments_per_page) (initSt F)
    simpa [initSt] using h
  · rw [get_book_review_def]
    have h := collectLoop_fetched_bound (reviewSpec fetch_full_content) envR book_id
      max_comments ((max_comments + comments_per_page - 1) / comments_per_page)
      ((max_comments + comments_per_page - 1) / comments_per_page) (initSt G)
    simpa [initSt] using h
  · intro k
    rw [Nat.div_le_iff_le_mul_add_pred hcpp]
    constructor
    · intro h
      rw [Nat.mul_comm]
      omega
    · intro h
      rw [Nat.mul_comm] at h
      omega
  · intro fuel hfuel
    rw [get_book_comments_def]
    apply collectLoop_fuel_eq
    · simpa [initSt] using hfuel
    · simp [initSt]

/-- C3: a fully processed page that accepted zero new records ends the loop
at once — in any collector run, every recorded page_new_count except
possibly the last is nonzero, and when the last one is zero the loop
fetched no page beyond it (the number of fetches equals the number of
processed pages). Holds for both collector loops. -/
theorem C3_zero_new_page_stalls (envC : Env CommentItem) (envR : Env ReviewItem)
    (book_id : String) (max_comments comments_per_page : Nat)
    (fetch_full_content : Bool) (F G : List FileLine) :
    ((∀ n ∈ (get_book_comments envC book_id max_comments comments_per_page F).pageNews.dropLast,
        n ≠ 0) ∧
     ((get_book_comments envC book_id max_comments comments_per_page F).pageNews.getLast? =
        some 0 →
      (get_book_comments envC book_id max_comments comments_per_page F).fetched.length =
        (get_book_comments envC book_id max_comments comments_per_page F).pageNews.length)) ∧
    ((∀ n ∈ (get_book_review envR book_id max_comments comments_per_page
        fetch_full_content G).pageNews.dropLast, n ≠ 0) ∧
     ((get_book_review envR book_id max_comments comments_per_page
        fetch_full_content G).pageNews.getLast? = some 0 →
      (get_book_review envR book_id max_comments comments_per_page
          fetch_full_content G).fetched.length =
        (get_book_review envR book_id max_comments comments_per_page
          fetch_full_content G).pageNews.length)) := by
  constructor
  · rw [get_book_comments_def]
    exact collectLoop_pageNews_inv commentSpec envC book_id max_comments _ _ (initSt F)
      (by intro n hn; exact absurd hn (List.not_mem_nil n)) rfl
  · rw [get_book_review_def]
    exact collectLoop_pageNews_inv (reviewSpec fetch_full_content) envR book_id
      max_comments _ _ (initSt G)
      (by intro n hn; exact absurd hn (List.not_mem_nil n)) rfl

/-- C5: the claim says a line that fails to parse is skipped individually
and the scan continues. In the code the try/except wraps the whole loop of
`_load_existing_ids`, so the first malformed line ends the scan: here a
well-formed line with id b sits after a malformed line and its id is
missing from the result. -/
theorem C5_counterexample :
    lineIdOf lineIdB = some "b" ∧
    lineIdB ∈ fileWithBadLine ∧
    "b" ∉ load_existing_ids fileWithBadLine ∧
    load_existing_ids fileWithBadLine = ["a"] := by
  decide

/-- C5 (amended): a malformed line is not fatal but ends the scan —
`_load_existing_ids` of a file with a malformed line returns exactly the
ids collected before the first malformed line, and on a file with no
malformed line every well-formed line's id is in the returned set. -/
theorem C5_parse_failure_truncates (pre suf G : List FileLine)
    (hG : FileLine.bad ∉ G) :
    load_existing_ids (pre ++ FileLine.bad :: suf) = load_existing_ids pre ∧
    ∀ l ∈ G, ∀ i, lineIdOf l = some i → i ∈ load_existing_ids G := by
  constructor
  · exact loadScan_trunc pre suf []
  · exact load_existing_ids_complete hG

theorem C5_witness :
    load_existing_ids ([lineIdA] ++ FileLine.bad :: [lineIdB]) =
      load_existing_ids [lineIdA] ∧
    "a" ∈ load_existing_ids [lineIdA, lineIdB] := by
  refine ⟨(C5_parse_failure_truncates [lineIdA] [lineIdB] [lineIdA, lineIdB] (by decide)).1, ?_⟩
  exact (C5_parse_failure_truncates [lineIdA] [lineIdB] [lineIdA, lineIdB] (by decide)).2
    lineIdA (by decide) "a" (by decide)

/-- C6: the claim says the collector returns both accepted_count and an
outcome value. The code returns only the boolean new_count > 0 (lines 496
and 661): two runs that accept different record counts (1 vs 2) under
different stopping conditions (target reached vs upstream exhausted)
return the same value, so the return carries neither the count nor an
outcome. -/
theorem C6_counterexample :
    get_book_comments_ret envTwoComments "B" 1 20 [] =
      get_book_comments_ret envTwoComments "B" 5 20 [] ∧
    (get_book_comments envTwoComments "B" 1 20 []).newCount = 1 ∧
    (get_book_comments envTwoComments "B" 5 20 []).newCount = 2 := by
  decide

/-- C6 (amended): each collector returns the single boolean
new_count > 0 — true exactly when at least one record was newly appended
to the stream file during the run. -/
theorem C6_returns_new_count_positive (envC : Env CommentItem) (envR : Env ReviewItem)
    (book_id : String) (max_comments comments_per_page : Nat)
    (fetch_full_content : Bool) (F G : List FileLine) :
    (get_book_comments_ret envC book_id max_comments comments_per_page F = true ↔
      F.length < (get_book_comments envC book_id max_comments comments_per_page F).file.length) ∧
    (get_book_review_ret envR book_id max_comments comments_per_page
        fetch_full_content G = true ↔
      G.length < (get_book_review envR book_id max_comments comments_per_page
        fetch_full_content G).file.length) := by
  constructor
  · have hs := collectLoop_sync commentSpec envC book_id max_comments
      ((max_comments + comments_per_page - 1) / comments_per_page)
      ((max_comments + comments_per_page - 1) / comments_per_page) (initSt F)
    rw [show (initSt F).newCount = 0 from rfl, show (initSt F).file = F from rfl] at hs
    unfold get_book_comments_ret
    rw [get_book_comments_def]
    simp only [decide_eq_true_eq]
    omega
  · have hs := collectLoop_sync (reviewSpec fetch_full_content) envR book_id max_comments
      ((max_comments + comments_per_page - 1) / comments_per_page)
      ((max_comments + comments_per_page - 1) / comments_per_page) (initSt G)
    rw [show (initSt G).newCount = 0 from rfl, show (initSt G).file = G from rfl] at hs
    unfold get_book_review_ret
    rw [get_book_review_def]
    simp only [decide_eq_true_eq]
    omega

theorem C6_witness :
    get_book_comments_ret envTwoComments "B" 5 20 [] = true ∧
    get_book_review_ret envNoReviews "B" 5 20 true [] = false := by
  constructor
  · exact (C6_returns_new_count_positive envTwoComments envNoReviews "B" 5 20 true [] []).1.mpr
      (by decide)
  · have h := (C6_returns_new_count_positive envTwoComments envNoReviews "B" 5 20 true [] []).2
    by_contra hc
    have : get_book_review_ret envNoReviews "B" 5 20 true [] = true := by
      cases hb : get_book_review_ret envNoReviews "B" 5 20 true []
      · exact absurd hb hc
      · rfl
    exact absurd (h.mp this) (by decide)

theorem C2_witness :
    (get_book_comments envTwoComments "B" 5 2 []).fetched.length ≤ 3 ∧
    (get_book_review envNoReviews "B" 5 2 true []).fetched.length ≤ 3 ∧
    (3 ≤ 3 ↔ 5 ≤ 3 * 2) := by
  have h := C2_loop_iteration_bound envTwoComments envNoReviews "B" 5 2 true [] []
    (by decide)
  exact ⟨h.1, h.2.1, h.2.2.1 3⟩

theorem C3_witness :
    (get_book_comments envTwoComments "B" 5 2
        (get_book_comments envTwoComments "B" 5 2 []).file).pageNews.getLast? = some 0 ∧
    (get_book_comments envTwoComments "B" 5 2
        (get_book_comments envTwoComments "B" 5 2 []).file).fetched.length =
      (get_book_comments envTwoComments "B" 5 2
        (get_book_comments envTwoComments "B" 5 2 []).file).pageNews.length := by
  refine ⟨by decide, ?_⟩
  exact (C3_zero_new_page_stalls envTwoComments envNoReviews "B" 5 2 true
    (get_book_comments envTwoComments "B" 5 2 []).file []).1.2 (by decide)

/-- C7: for a record that passes the dedup check, a persist failure is
reported by `_append_to_jsonl` as false and is atomic: the id is not
inserted into existing_ids, new_count and page_new_count stay unchanged,
no line is appended and the for-loop does not break (processing continues
with the next record and the page loop proceeds normally); on a true
return exactly the line append, the id insert and the two counter bumps
happen. -/
theorem C7_persist_failure_atomic {α : Type} (S : StreamSpec α) (env : Env α)
    (book_id : String) (max_comments : Nat) (it : α) (st : St) (pageNew : Nat)
    (hrid : S.rid it ≠ "") (hnot : S.rid it ∉ st.existing) :
    (env.appendOk st.tick = false →
      recordStep S env book_id max_comments it st pageNew =
        ({ st with tick := st.tick + 1 }, pageNew, decide (max_comments ≤ st.newCount)) ∧
      (st.newCount < max_comments →
        (recordStep S env book_id max_comments it st pageNew).2.2 = false)) ∧
    (env.appendOk st.tick = true →
      recordStep S env book_id max_comments it st pageNew =
        ({ st with file := st.file ++ [FileLine.obj (S.mkLine book_id it)]
                   existing := insertId st.existing (S.rid it)
                   newCount := st.newCount + 1
                   tick := st.tick + 1 },
         pageNew + 1, decide (max_comments ≤ st.newCount + 1))) := by
  have hdup : ¬(S.rid it = "" ∨ S.rid it ∈ st.existing) := by
    intro hc
    rcases hc with hc | hc
    · exact hrid hc
    · exact hnot hc
  constructor
  · intro hao
    have heq : recordStep S env book_id max_comments it st pageNew =
        ({ st with tick := st.tick + 1 }, pageNew, decide (max_comments ≤ st.newCount)) := by
      rw [recordStep_eq, if_neg hdup, if_neg (by simp [hao])]
    refine ⟨heq, ?_⟩
    intro hlt
    rw [heq]
    show decide (max_comments ≤ st.newCount) = false
    simp only [decide_eq_false_iff_not]
    omega
  · intro hao
    rw [recordStep_eq, if_neg hdup, if_pos hao]

theorem C7_witness :
    ((recordStep commentSpec envAppendFail "B" 5 { rid := "a", content := "x" }
        (initSt []) 0).1.newCount = 0 ∧
     (recordStep commentSpec envAppendFail "B" 5 { rid := "a", content := "x" }
        (initSt []) 0).1.existing = [] ∧
     (recordStep commentSpec envAppendFail "B" 5 { rid := "a", content := "x" }
        (initSt []) 0).1.file = [] ∧
     (recordStep commentSpec envAppendFail "B" 5 { rid := "a", content := "x" }
        (initSt []) 0).2.2 = false) ∧
    (recordStep commentSpec envTwoComments "B" 5 { rid := "a", content := "x" }
        (initSt []) 0).1.newCount = 1 := by
  have hf := C7_persist_failure_atomic commentSpec envAppendFail "B" 5
    { rid := "a", content := "x" } (initSt []) 0 (by decide) (by decide)
  have ht := C7_persist_failure_atomic commentSpec envTwoComments "B" 5
    { rid := "a", content := "x" } (initSt []) 0 (by decide) (by decide)
  refine ⟨?_, ?_⟩
  · have heq := (hf.1 rfl).1
    have hbrk := (hf.1 rfl).2 (by decide)
    rw [heq]
    exact ⟨rfl, rfl, rfl, by rw [← heq]; exact hbrk⟩
  · have heq := ht.2 rfl
    rw [heq]
    rfl

/-- C8: in get_book_review with fetch_full_content enabled and a record
with a review_url, a failed secondary fetch (request raised, or no
.review-content element) leaves the record's content at the already
extracted summary, while a successful fetch with the element present
replaces it with the full text; whether the record is accepted, counted
and persisted never depends on the secondary fetch's outcome, and on a
failed secondary fetch the record is still appended, carrying its summary
content. -/
theorem C8_detail_fetch_failure_keeps_summary (env : Env ReviewItem)
    (book_id : String) (max_comments : Nat) (it : ReviewItem) (st : St)
    (pageNew : Nat) (t : String) (hurl : it.review_url ≠ "") :
    resolveContent true { it with detail := DetailFetch.fail } = it.content ∧
    resolveContent true { it with detail := DetailFetch.ok none } = it.content ∧
    resolveContent true { it with detail := DetailFetch.ok (some t) } = t ∧
    (∀ d1 d2 : DetailFetch,
      (recordStep (reviewSpec true) env book_id max_comments
          { it with detail := d1 } st pageNew).1.newCount =
        (recordStep (reviewSpec true) env book_id max_comments
          { it with detail := d2 } st pageNew).1.newCount ∧
      (recordStep (reviewSpec true) env book_id max_comments
          { it with detail := d1 } st pageNew).1.existing =
        (recordStep (reviewSpec true) env book_id max_comments
          { it with detail := d2 } st pageNew).1.existing ∧
      (recordStep (reviewSpec true) env book_id max_comments
          { it with detail := d1 } st pageNew).1.file.length =
        (recordStep (reviewSpec true) env book_id max_comments
          { it with detail := d2 } st pageNew).1.file.length ∧
      (recordStep (reviewSpec true) env book_id max_comments
          { it with detail := d1 } st pageNew).2 =
        (recordStep (reviewSpec true) env book_id max_comments
          { it with detail := d2 } st pageNew).2) ∧
    (it.rid ≠ "" → it.rid ∉ st.existing → env.appendOk st.tick = true →
      (recordStep (reviewSpec true) env book_id max_comments
          { it with detail := DetailFetch.fail } st pageNew).1.file =
        st.file ++ [FileLine.obj { book_id := some book_id
                                   title := some it.title
                                   review_id := some it.rid
                                   content := some it.content }]) := by
  refine ⟨by simp [resolveContent, hurl], by simp [resolveContent, hurl],
          by simp [resolveContent, hurl], ?_, ?_⟩
  · intro d1 d2
    rw [recordStep_eq, recordStep_eq]
    simp only [reviewSpec]
    by_cases hdup : it.rid = "" ∨ it.rid ∈ st.existing
    · rw [if_pos hdup, if_pos hdup]
      exact ⟨rfl, rfl, rfl, rfl⟩
    · by_cases hok : env.appendOk st.tick = true
      · rw [if_neg hdup, if_neg hdup, if_pos hok, if_pos hok]
        refine ⟨rfl, rfl, ?_, rfl⟩
        simp
      · rw [if_neg hdup, if_neg hdup, if_neg hok, if_neg hok]
        exact ⟨rfl, rfl, rfl, rfl⟩
  · intro h1 h2 hok
    have hdup : ¬(it.rid = "" ∨ it.rid ∈ st.existing) := by
      intro hc
      rcases hc with hc | hc
      · exact h1 hc
      · exact h2 hc
    rw [recordStep_eq]
    simp only [reviewSpec]
    rw [if_neg hdup, if_pos hok]
    simp [resolveContent, hurl]

theorem C8_witness :
    resolveContent true reviewItemDetailFail = "summary" ∧
    (recordStep (reviewSpec true) envReview123 "456" 5 reviewItemDetailFail
        (initSt []) 0).1.file =
      [FileLine.obj { book_id := some "456", title := some "t",
                      review_id := some "9", content := some "summary" }] := by
  have h := C8_detail_fetch_failure_keeps_summary envReview123 "456" 5
    reviewItemDetailFail (initSt []) 0 "full" (by decide)
  exact ⟨h.1, h.2.2.2.2 (by decide) (by decide) rfl⟩

/- ===== Second-run (idempotence) development for C4 ===== -/

/-- When every non-empty id extracted from page 0 is already in the index
rebuilt from the stream file, the run accepts nothing, leaves the file
unchanged and stops after fetching page 0 only. -/
lemma page0_all_dup_stalls (env : Env CommentItem) (book_id : String)
    (max_comments g : Nat) (F1 : List FileLine)
    (hmax : 0 < max_comments)
    (hcov : ∀ items, env.pages 0 = PageRes.page items →
      ∀ it : CommentItem, ItemRes.item it ∈ items → it.rid ≠ "" →
        it.rid ∈ load_existing_ids F1) :
    (collectLoop commentSpec env book_id max_comments (g + 1) (g + 1) (initSt F1)).newCount = 0 ∧
    (collectLoop commentSpec env book_id max_comments (g + 1) (g + 1) (initSt F1)).file = F1 ∧
    (collectLoop commentSpec env book_id max_comments (g + 1) (g + 1) (initSt F1)).fetched = [0] := by
  have hcond : (initSt F1).pageCount < g + 1 ∧ (initSt F1).newCount < max_comments :=
    ⟨Nat.succ_pos g, hmax⟩
  rw [collectLoop_succ commentSpec env book_id max_comments (g + 1) g (initSt F1) hcond]
  cases hp : env.pages 0 with
  | fetchErr =>
      have hps := pageStep_fetchErr commentSpec env book_id max_comments (initSt F1) hp
      rw [hps]
      simp [initSt]
  | page items =>
      have hps := pageStep_page commentSpec env book_id max_comments (initSt F1) items hp
      by_cases hem : items.isEmpty = true
      · rw [hps, if_pos hem]
        simp [initSt]
      · rw [hps, if_neg hem]
        have hall : ∀ it : CommentItem, ItemRes.item it ∈ items →
            commentSpec.rid it = "" ∨ commentSpec.rid it ∈
              ({ initSt F1 with
                  fetched := (initSt F1).fetched ++ [(initSt F1).pageCount] } : St).existing := by
          intro it hit
          by_cases hr : it.rid = ""
          · exact Or.inl hr
          · exact Or.inr (hcov items hp it hit hr)
        rw [processItems_all_dup commentSpec env book_id max_comments items _ 0 hall]
        simp [pageFinish, initSt]

/-- With all writes succeeding and the target never reached, every
non-empty id extracted from page 0 ends up in the first run's final
existing_ids. -/
lemma run1_page0_coverage (env : Env CommentItem) (book_id : String)
    (max_comments g : Nat) (F : List FileLine)
    (hAO : ∀ t, env.appendOk t = true) (hmax : 0 < max_comments)
    (hlt : (collectLoop commentSpec env book_id max_comments (g + 1) (g + 1)
      (initSt F)).newCount < max_comments) :
    ∀ items, env.pages 0 = PageRes.page items →
    ∀ it : CommentItem, ItemRes.item it ∈ items → it.rid ≠ "" →
    it.rid ∈ (collectLoop commentSpec env book_id max_comments (g + 1) (g + 1)
      (initSt F)).existing := by
  intro items hp it hit hr
  have hcond : (initSt F).pageCount < g + 1 ∧ (initSt F).newCount < max_comments :=
    ⟨Nat.succ_pos g, hmax⟩
  rw [collectLoop_succ commentSpec env book_id max_comments (g + 1) g (initSt F) hcond] at hlt ⊢
  by_cases hem : items.isEmpty = true
  · exfalso
    have hnil : items = [] := List.isEmpty_iff.mp hem
    rw [hnil] at hit
    exact List.not_mem_nil _ hit
  · have hps := pageStep_page commentSpec env book_id max_comments (initSt F) items hp
    rw [hps, if_neg hem] at hlt ⊢
    have hcov0 := fun hlt2 => processItems_coverage commentSpec env book_id max_comments hAO
      items { initSt F with fetched := (initSt F).fetched ++ [(initSt F).pageCount] } 0
      hlt2 it hit hr
    generalize hpr : processItems commentSpec env book_id max_comments items
      { initSt F with fetched := (initSt F).fetched ++ [(initSt F).pageCount] } 0 = pr
      at hlt hcov0 ⊢
    by_cases hc2 : (pageFinish max_comments pr).2 = true
    · rw [if_pos hc2] at hlt ⊢
      have hmono := collectLoop_newCount_mono commentSpec env book_id max_comments
        (g + 1) g (pageFinish max_comments pr).1
      have hsub := collectLoop_existing_mono commentSpec env book_id max_comments
        (g + 1) g (pageFinish max_comments pr).1
      have hfin_new : (pageFinish max_comments pr).1.newCount = pr.1.newCount := rfl
      have hfin_ex : (pageFinish max_comments pr).1.existing = pr.1.existing := rfl
      apply hsub
      rw [hfin_ex]
      apply hcov0
      omega
    · rw [if_neg hc2] at hlt ⊢
      have hfin_ex : (pageFinish max_comments pr).1.existing = pr.1.existing := rfl
      have hfin_new : (pageFinish max_comments pr).1.newCount = pr.1.newCount := rfl
      rw [hfin_ex]
      apply hcov0
      omega

/-- Running get_book_comments again on the file the first run wrote appends
nothing, provided all writes succeeded, the first run's target was never
reached, and the initial file had no malformed line. -/
lemma second_run_zero (env : Env CommentItem) (book_id : String)
    (max_comments g : Nat) (F : List FileLine)
    (hF : FileLine.bad ∉ F)
    (hAO : ∀ t, env.appendOk t = true)
    (hmax : 0 < max_comments)
    (hlt : (collectLoop commentSpec env book_id max_comments (g + 1) (g + 1)
      (initSt F)).newCount < max_comments) :
    (collectLoop commentSpec env book_id max_comments (g + 1) (g + 1)
        (initSt (collectLoop commentSpec env book_id max_comments (g + 1) (g + 1)
          (initSt F)).file)).newCount = 0 ∧
    (collectLoop commentSpec env book_id max_comments (g + 1) (g + 1)
        (initSt (collectLoop commentSpec env book_id max_comments (g + 1) (g + 1)
          (initSt F)).file)).file =
      (collectLoop commentSpec env book_id max_comments (g + 1) (g + 1) (initSt F)).file ∧
    (collectLoop commentSpec env book_id max_comments (g + 1) (g + 1)
        (initSt (collectLoop commentSpec env book_id max_comments (g + 1) (g + 1)
          (initSt F)).file)).fetched = [0] := by
  apply page0_all_dup_stalls env book_id max_comments g _ hmax
  intro items hp it hit hr
  have h1 := run1_page0_coverage env book_id max_comments g F hAO hmax hlt items hp it hit hr
  have hgood := collectLoop_GoodSt env book_id max_comments (g + 1) commentSpec_SpecGood
    (g + 1) (initSt F) (initSt_GoodSt F hF)
  rw [← hgood.2]
  exact h1

/-- C4: the claim says a second run with identical server responses always
appends zero new records and stalls after one page. It fails when the
first run reached its target in the middle of page 0: with max_comments =
1 and page 0 carrying ids a and b, the first run accepts only a, and the
second run — same responses — accepts b, so it appends one record and the
on-disk record set changes. -/
theorem C4_counterexample :
    (get_book_comments envTwoComments "B" 1 20 []).newCount = 1 ∧
    (get_book_comments envTwoComments "B" 1 20
        (get_book_comments envTwoComments "B" 1 20 []).file).newCount = 1 ∧
    (get_book_comments envTwoComments "B" 1 20
        (get_book_comments envTwoComments "B" 1 20 []).file).file ≠
      (get_book_comments envTwoComments "B" 1 20 []).file := by
  decide

/-- C4 (amended): running get_book_comments a second time against the same
stream with identical server responses appends zero new records and stalls
after fetching page 0 only, leaving the on-disk record set unchanged —
provided every append of the first run succeeded, the first run never
reached its target count (so page 0 was processed in full), and the
starting file had no malformed line. -/
theorem C4_second_run_appends_nothing (env : Env CommentItem) (book_id : String)
    (max_comments comments_per_page : Nat) (F : List FileLine)
    (hcpp : 0 < comments_per_page)
    (hF : FileLine.bad ∉ F)
    (hAO : ∀ t, env.appendOk t = true)
    (hlt : (get_book_comments env book_id max_comments comments_per_page F).newCount <
      max_comments) :
    (get_book_comments env book_id max_comments comments_per_page
        (get_book_comments env book_id max_comments comments_per_page F).file).newCount = 0 ∧
    (get_book_comments env book_id max_comments comments_per_page
        (get_book_comments env book_id max_comments comments_per_page F).file).file =
      (get_book_comments env book_id max_comments comments_per_page F).file ∧
    (get_book_comments env book_id max_comments comments_per_page
        (get_book_comments env book_id max_comments comments_per_page F).file).fetched =
      [0] := by
  have hmax : 0 < max_comments := Nat.lt_of_le_of_lt (Nat.zero_le _) hlt
  have hmp : 0 < (max_comments + comments_per_page - 1) / comments_per_page := by
    have h1 : 1 ≤ (max_comments + comments_per_page - 1) / comments_per_page :=
      (Nat.one_le_div_iff hcpp).mpr (by omega)
    omega
  obtain ⟨g, hg⟩ : ∃ g, (max_comments + comments_per_page - 1) / comments_per_page = g + 1 :=
    ⟨(max_comments + comments_per_page - 1) / comments_per_page - 1, by omega⟩
  have hlt2 : (collectLoop commentSpec env book_id max_comments (g + 1) (g + 1)
      (initSt F)).newCount < max_comments := by
    rw [get_book_comments_def, hg] at hlt
    exact hlt
  have h := second_run_zero env book_id max_comments g F hF hAO hmax hlt2
  rw [get_book_comments_def, get_book_comments_def, hg]
  exact h

theorem C4_witness :
    (get_book_comments envTwoComments "B" 5 2
        (get_book_comments envTwoComments "B" 5 2 []).file).newCount = 0 ∧
    (get_book_comments envTwoComments "B" 5 2
        (get_book_comments envTwoComments "B" 5 2 []).file).file =
      (get_book_comments envTwoComments "B" 5 2 []).file ∧
    (get_book_comments envTwoComments "B" 5 2
        (get_book_comments envTwoComments "B" 5 2 []).file).fetched = [0] :=
  C4_second_run_appends_nothing envTwoComments "B" 5 2 [] (by decide) (by decide)
    (fun t => rfl) (by decide)

/- ===== Orchestrator lemmas (C9) ===== -/

lemma mainAggregate_fold (runRaises : String → Bool) :
    ∀ (order : List String) (c : Nat) (l : List String),
    order.foldl
      (fun acc name =>
        if (crawl_single_book runRaises name).1 then (acc.1 + 1, acc.2)
        else (acc.1, acc.2 ++ [(crawl_single_book runRaises name).2])) (c, l) =
    (c + (order.filter (fun n => !runRaises n)).length,
     l ++ order.filter (fun n => runRaises n)) := by
  intro order
  induction order with
  | nil =>
      intro c l
      simp
  | cons hd rest ih =>
      intro c l
      simp only [List.foldl_cons]
      cases hb : runRaises hd
      · have hc : crawl_single_book runRaises hd = (true, hd) := by
          simp [crawl_single_book, hb]
        have hf1 : List.filter (fun n => !runRaises n) (hd :: rest) =
            hd :: List.filter (fun n => !runRaises n) rest := by
          simp [List.filter_cons, hb]
        have hf2 : List.filter (fun n => runRaises n) (hd :: rest) =
            List.filter (fun n => runRaises n) rest := by
          simp [List.filter_cons, hb]
        rw [hc]
        have hred : (if ((true, hd) : Bool × String).1 = true then (c + 1, l)
            else (c, l ++ [((true, hd) : Bool × String).2])) = (c + 1, l) := rfl
        rw [hred, ih (c + 1) l, hf1, hf2, List.length_cons]
        simp only [Prod.mk.injEq]
        exact ⟨by omega, trivial⟩
      · have hc : crawl_single_book runRaises hd = (false, hd) := by
          simp [crawl_single_book, hb]
        have hf1 : List.filter (fun n => !runRaises n) (hd :: rest) =
            List.filter (fun n => !runRaises n) rest := by
          simp [List.filter_cons, hb]
        have hf2 : List.filter (fun n => runRaises n) (hd :: rest) =
            hd :: List.filter (fun n => runRaises n) rest := by
          simp [List.filter_cons, hb]
        rw [hc]
        have hred : (if ((false, hd) : Bool × String).1 = true then (c + 1, l)
            else (c, l ++ [((false, hd) : Bool × String).2])) = (c, l ++ [hd]) := rfl
        rw [hred, ih c (l ++ [hd]), hf1, hf2]
        simp only [Prod.mk.injEq]
        exact ⟨trivial, by simp⟩

lemma mainAggregate_eq (runRaises : String → Bool) (order : List String) :
    mainAggregate runRaises order =
      ((order.filter (fun n => !runRaises n)).length,
       order.filter (fun n => runRaises n)) := by
  unfold mainAggregate
  rw [mainAggregate_fold runRaises order 0 []]
  simp

lemma filter_length_split (p : String → Bool) : ∀ l : List String,
    (l.filter p).length + (l.filter (fun a => !p a)).length = l.length := by
  intro l
  induction l with
  | nil => rfl
  | cons hd rest ih =>
      cases hb : p hd <;> simp [List.filter_cons, hb] <;> omega

lemma filter_exactly_one (runRaises : String → Bool) :
    ∀ (names : List String) (K : String), K ∈ names → names.Nodup →
    (∀ n ∈ names, runRaises n = true ↔ n = K) →
    names.filter (fun n => runRaises n) = [K] := by
  intro names
  induction names with
  | nil => intro K hK _ _; exact absurd hK (List.not_mem_nil K)
  | cons hd rest ih =>
      intro K hK hnd hks
      rcases List.mem_cons.mp hK with heq | hmem
      · subst heq
        have hhd : runRaises K = true := (hks K (List.mem_cons_self _ _)).mpr rfl
        have hrest : rest.filter (fun n => runRaises n) = [] := by
          rw [List.filter_eq_nil_iff]
          intro a ha
          intro hra
          have haK : a = K := (hks a (List.mem_cons_of_mem _ ha)).mp hra
          subst haK
          exact (List.nodup_cons.mp hnd).1 ha
        simp [List.filter_cons, hhd, hrest]
      · have hne : hd ≠ K := by
          intro hc
          subst hc
          exact (List.nodup_cons.mp hnd).1 hmem
        have hhd : runRaises hd = false := by
          cases hb : runRaises hd
          · rfl
          · exact absurd ((hks hd (List.mem_cons_self _ _)).mp hb) hne
        simp only [List.filter_cons, hhd, Bool.false_eq_true, if_false]
        exact ih K hmem (List.nodup_cons.mp hnd).2
          (fun n hn => hks n (List.mem_cons_of_mem _ hn))

/-- C9: when exactly one of N distinct submitted targets always raises, the
exception is absorbed inside crawl_single_book (which returns
(False, name) instead of propagating), the aggregation still processes
every target (successes plus failures add up to N), and main reports
exactly N - 1 successes with failed_books = [K]. -/
theorem C9_partial_failure_isolation (names : List String) (K : String)
    (runRaises : String → Bool)
    (hK : K ∈ names) (hnd : names.Nodup)
    (hks : ∀ n ∈ names, runRaises n = true ↔ n = K) :
    mainAggregate runRaises names = (names.length - 1, [K]) ∧
    (mainAggregate runRaises names).1 + (mainAggregate runRaises names).2.length =
      names.length ∧
    crawl_single_book runRaises K = (false, K) := by
  have hfil := filter_exactly_one runRaises names K hK hnd hks
  have hsplit := filter_length_split (fun n => runRaises n) names
  rw [hfil] at hsplit
  have heq := mainAggregate_eq runRaises names
  rw [hfil] at heq
  refine ⟨?_, ?_, ?_⟩
  · rw [heq]
    simp only [List.length_singleton] at hsplit
    have : (names.filter (fun n => !runRaises n)).length = names.length - 1 := by omega
    rw [this]
  · rw [heq]
    simp only [List.length_singleton] at hsplit ⊢
    omega
  · have hKr : runRaises K = true := (hks K hK).mpr rfl
    simp [crawl_single_book, hKr]

theorem C9_witness :
    mainAggregate (fun n => n == "K") ["A", "K", "B"] = (2, ["K"]) :=
  (C9_partial_failure_isolation ["A", "K", "B"] "K" (fun n => n == "K")
    (by decide) (by decide) (by decide)).1

/- ===== Proxy pool lemmas (C10) ===== -/

lemma randomChoice_mem {l : List String} (rnd : Nat) (h : l ≠ []) :
    randomChoice l rnd ∈ l := by
  have hlen : 0 < l.length := List.length_pos.mpr h
  have hm : rnd % l.length < l.length := Nat.mod_lt _ hlen
  unfold randomChoice
  rw [List.getD_eq_getElem l "" hm]
  exact List.getElem_mem hm

lemma get_proxy_some {pool : ProxyPool} {rnd : Nat} {p q : String}
    (h : get_proxy pool rnd = some (p, q)) :
    q = p ∧ p ∉ pool.failed_proxies ∧ (p ∈ pool.valid_proxies ∨ p ∈ pool.proxies) := by
  unfold get_proxy at h
  split_ifs at h with h1 h2
  · have hinj := Option.some.inj h
    have hp : randomChoice
        (pool.valid_proxies.filter (fun x => decide (x ∉ pool.failed_proxies))) rnd = p :=
      congrArg Prod.fst hinj
    have hq : randomChoice
        (pool.valid_proxies.filter (fun x => decide (x ∉ pool.failed_proxies))) rnd = q :=
      congrArg Prod.snd hinj
    have hmem := randomChoice_mem rnd h1.2
    rw [hp] at hmem
    have hmem2 := List.mem_filter.mp hmem
    refine ⟨by rw [← hq]; exact hp, ?_, Or.inl hmem2.1⟩
    exact of_decide_eq_true hmem2.2
  · have hinj := Option.some.inj h
    have hp : randomChoice
        (pool.proxies.filter (fun x => decide (x ∉ pool.failed_proxies))) rnd = p :=
      congrArg Prod.fst hinj
    have hq : randomChoice
        (pool.proxies.filter (fun x => decide (x ∉ pool.failed_proxies))) rnd = q :=
      congrArg Prod.snd hinj
    have hmem := randomChoice_mem rnd h2.2
    rw [hp] at hmem
    have hmem2 := List.mem_filter.mp hmem
    refine ⟨by rw [← hq]; exact hp, ?_, Or.inr hmem2.1⟩
    exact of_decide_eq_true hmem2.2

/-- C10: get_proxy never returns a proxy marked failed — a non-None result
is a pair with http and https the same string, drawn from the loaded
proxies and outside the failed set, validated proxies being preferred
whenever one is available; None is returned exactly when every loaded
proxy is failed or none was loaded (for pools whose validated list came
from the loaded list); and after mark_proxy_failed on a dict, get_proxy
can never return that dict's proxy again. -/
theorem C10_get_proxy_never_failed (pool : ProxyPool) (rnd : Nat) :
    (∀ p q, get_proxy pool rnd = some (p, q) →
      q = p ∧ p ∉ pool.failed_proxies ∧ (p ∈ pool.valid_proxies ∨ p ∈ pool.proxies)) ∧
    (pool.valid_proxies.filter (fun p => decide (p ∉ pool.failed_proxies)) ≠ [] →
      ∃ p, get_proxy pool rnd = some (p, p) ∧ p ∈ pool.valid_proxies ∧
        p ∉ pool.failed_proxies) ∧
    (pool.valid_proxies ⊆ pool.proxies →
      (get_proxy pool rnd = none ↔ ∀ p ∈ pool.proxies, p ∈ pool.failed_proxies)) ∧
    (∀ (d : String × String) (rnd2 : Nat) (q : String),
      get_proxy (mark_proxy_failed pool (some d)) rnd2 ≠ some (d.1, q)) := by
  refine ⟨fun p q h => get_proxy_some h, ?_, ?_, ?_⟩
  · intro hne
    have hbase : pool.valid_proxies ≠ [] := by
      intro hc
      rw [hc] at hne
      exact hne rfl
    have heq : get_proxy pool rnd =
        some (randomChoice
                (pool.valid_proxies.filter (fun p => decide (p ∉ pool.failed_proxies))) rnd,
              randomChoice
                (pool.valid_proxies.filter (fun p => decide (p ∉ pool.failed_proxies))) rnd) := by
      unfold get_proxy
      rw [if_pos ⟨hbase, hne⟩]
    refine ⟨_, heq, ?_, ?_⟩
    · exact (List.mem_filter.mp (randomChoice_mem rnd hne)).1
    · exact of_decide_eq_true (List.mem_filter.mp (randomChoice_mem rnd hne)).2
  · intro hsub
    constructor
    · intro hnone
      unfold get_proxy at hnone
      split_ifs at hnone with h1 h2
      intro p hp
      by_contra hfail
      apply h2
      constructor
      · intro hc
        rw [hc] at hp
        exact List.not_mem_nil p hp
      · intro hc
        rw [List.filter_eq_nil_iff] at hc
        exact hc p hp (by simpa using hfail)
    · intro hall
      unfold get_proxy
      split_ifs with h1 h2
      · exfalso
        have hmem := randomChoice_mem rnd h1.2
        have hmem2 := List.mem_filter.mp hmem
        have hin : randomChoice
            (pool.valid_proxies.filter (fun p => decide (p ∉ pool.failed_proxies))) rnd ∈
            pool.proxies := hsub hmem2.1
        exact of_decide_eq_true hmem2.2 (hall _ hin)
      · exfalso
        have hmem := randomChoice_mem rnd h2.2
        have hmem2 := List.mem_filter.mp hmem
        exact of_decide_eq_true hmem2.2 (hall _ hmem2.1)
      · rfl
  · intro d rnd2 q heq
    have h := get_proxy_some heq
    have hfail : d.1 ∈ (mark_proxy_failed pool (some d)).failed_proxies :=
      self_mem_insertId pool.failed_proxies d.1
    exact h.2.1 hfail

theorem C10_witness :
    (∃ p, get_proxy poolW 0 = some (p, p) ∧ p ∈ poolW.valid_proxies ∧
      p ∉ poolW.failed_proxies) ∧
    get_proxy (mark_proxy_failed poolW
        (some ("http://1.1.1.1:80", "http://1.1.1.1:80"))) 0 ≠
      some ("http://1.1.1.1:80", "http://1.1.1.1:80") := by
  refine ⟨(C10_get_proxy_never_failed poolW 0).2.1 (by decide), ?_⟩
  exact (C10_get_proxy_never_failed poolW 0).2.2.2
    ("http://1.1.1.1:80", "http://1.1.1.1:80") 0 "http://1.1.1.1:80"
